import Mathlib

/-!
Verification of the HoverPeek preflight classification, risk-scoring, fetch
planning and TTL-cache core (`src/background.ts`).

Shallow embedding conventions:
* TypeScript enums become Lean inductives; interfaces become structures, with
  optional (`?`) fields embedded as `Option`.
* Browser primitives that the code calls but does not define — `new URL(...)`
  parsing, the anchor-text domain regex, `detectVideoPlatform`'s use of
  `URLSearchParams` — are passed in as explicit oracle functions (`Browser`,
  `dvp`); everything defined in the repository itself is translated directly.
* The network is an oracle `net : String → Option NetResponse` (`none` models
  a fetch rejection: timeout or network failure); the byte sniffer and the
  partial-fetch response are modelled the same way.
* Fallible code returns `Except String`; `async` sequencing becomes ordinary
  sequencing, and the per-invocation mutable locals become state passing.
-/

namespace HoverPeek

/-- LinkType enum from background.ts. -/
inductive LinkType where
  | Webpage
  | PDF
  | Download
  | Image
  | Video
  | Mailto
  | Tel
  | Anchor
  | Blocked
deriving DecidableEq, Repr

/-- RiskLevel enum from background.ts. -/
inductive RiskLevel where
  | Green
  | Amber
  | Red
deriving DecidableEq, Repr

/-- FetchPlan enum from background.ts. -/
inductive FetchPlan where
  | Blocked
  | HeadOnly
  | PartialGet
  | NoFetch
deriving DecidableEq, Repr

/-- VideoPlatform interface; the platform tag is kept as a plain string. -/
structure VideoPlatform where
  platform : String
  videoId : Option String
  embedUrl : Option String
deriving DecidableEq, Repr

/-- PreflightResult interface; optional fields are `Option`, absent = `none`. -/
structure PreflightResult where
  domain : String
  type : LinkType
  risk : RiskLevel
  reasons : List String
  size : Option Nat
  finalUrl : String
  fetchPlan : FetchPlan
  redirectCount : Option Nat
  textMismatch : Option (String × String)
  videoPlatform : Option VideoPlatform
deriving DecidableEq, Repr

/-- RiskSignal interface from background.ts. -/
structure RiskSignal where
  level : RiskLevel
  reason : String
deriving DecidableEq, Repr

/-- The observable fields of a parsed WHATWG URL object that the code reads. -/
structure Url where
  protocol : String
  hostname : String
  pathname : String
  search : String
  hash : String
  href : String
deriving DecidableEq, Repr

/-- Browser primitives the code calls: `parseURL h b` models `new URL(h, b)`
(`none` = the constructor throws), `parseAbs s` models `new URL(s)`, and
`matchDomainPattern t` models the capture group of
`t.match(/(?:https?:\/\/)?([a-zA-Z0-9.-]+\.[a-zA-Z]\x7b2,\x7d)/i)` in
`checkAnchorTextMismatch` (`none` = no match or an empty, falsy capture). -/
structure Browser where
  parseURL : String → String → Option Url
  parseAbs : String → Option Url
  matchDomainPattern : String → Option String

/-- JS `String.prototype.includes` over lists of characters. -/
def listHasSub (pat : List Char) : List Char → Bool
  | [] => List.isPrefixOf pat []
  | c :: rest => List.isPrefixOf pat (c :: rest) || listHasSub pat rest

/-- JS `s.includes(pat)`. -/
def hasSubstr (s pat : String) : Bool :=
  listHasSub pat.toList s.toList

/-- JS `s.toLowerCase()`, as the per-character ASCII case map (all the
strings this code lowercases and compares are ASCII). -/
def jsToLower (s : String) : String :=
  String.mk (s.data.map Char.toLower)

/-- JS `s.startsWith(pat)`. -/
def jsStartsWith (s pat : String) : Bool :=
  List.isPrefixOf pat.data s.data

/-- JS `s.endsWith(pat)`. -/
def jsEndsWith (s pat : String) : Bool :=
  List.isPrefixOf pat.data.reverse s.data.reverse

/-- JS `s.split(sep)` over characters, for the single-character separator
used by `extractTopLevel`. -/
def splitOnChar (c : Char) : List Char → List (List Char)
  | [] => [[]]
  | x :: xs =>
    match splitOnChar c xs with
    | [] => [[]]
    | h :: t => if x = c then [] :: h :: t else (x :: h) :: t

/-- CACHE_DURATION constant: 5 minutes in milliseconds. -/
def CACHE_DURATION : Nat := 5 * 60 * 1000

/-- The dangerous scheme list of `normalizeAndGate`. -/
def dangerousSchemes : List String := ["javascript:", "data:", "file:", "vbscript:"]

/-- `normalizeAndGate` from background.ts: parse the href against the page
origin, reject dangerous schemes (the Red signal pushed in that branch is
discarded by the `return null`, exactly as in the source). -/
def normalizeAndGate (b : Browser) (href pageOrigin : String) :
    Option (Url × List RiskSignal) :=
  match b.parseURL href pageOrigin with
  | none => none
  | some url =>
    if dangerousSchemes.any (fun scheme => decide (url.protocol = scheme)) then
      none
    else
      some (url, [])

/-- `extractDomain` from background.ts (the try/catch returns `hostname`
on both paths). -/
def extractDomain (url : Url) : String :=
  url.hostname

/-- `isSamePageAnchor` from background.ts. -/
def isSamePageAnchor (b : Browser) (url : Url) (pageOrigin : String) : Bool :=
  match b.parseAbs pageOrigin with
  | none => false
  | some pageUrl =>
    decide (url.hostname = pageUrl.hostname) &&
    decide (url.pathname = pageUrl.pathname) &&
    decide (url.hash ≠ "") &&
    decide (url.search = pageUrl.search)

/-- `detectHomograph` from background.ts: mixed Latin/Cyrillic or Latin/Greek
scripts, or a confusable marker substring. -/
def detectHomograph (domain : String) : Bool :=
  let hasCyrillic := domain.toList.any (fun c => decide (0x400 ≤ c.toNat ∧ c.toNat ≤ 0x4FF))
  let hasLatin := domain.toList.any
    (fun c => decide (('a' ≤ c ∧ c ≤ 'z') ∨ ('A' ≤ c ∧ c ≤ 'Z')))
  let hasGreek := domain.toList.any (fun c => decide (0x370 ≤ c.toNat ∧ c.toNat ≤ 0x3FF))
  if (hasCyrillic && hasLatin) || (hasGreek && hasLatin) then
    true
  else
    let confusables : List String :=
      ["xn--", "а", "е", "о", "р", "с", "х"]
    confusables.any (fun ch => hasSubstr domain ch)

/-- JS `domain.replace(/^www\./, '')`. -/
def stripWww (d : String) : String :=
  if jsStartsWith d "www." then d.drop 4 else d

/-- The `extractTopLevel` closure of `checkAnchorTextMismatch`:
`parts.slice(-2).join('.')` when there are at least two labels. -/
def extractTopLevel (domain : String) : String :=
  let parts := (splitOnChar '.' domain.data).map (fun l => String.mk l)
  if 2 ≤ parts.length then
    String.intercalate "." (parts.drop (parts.length - 2))
  else
    domain

/-- `checkAnchorTextMismatch` from background.ts, with the domain regex
supplied by the browser oracle. -/
def checkAnchorTextMismatch (matchDomainPattern : String → Option String)
    (anchorText hrefDomain : String) : Option (String × String) :=
  match matchDomainPattern anchorText with
  | none => none
  | some captured =>
    let textDomain := jsToLower captured
    let normalizedHrefDomain := stripWww (jsToLower hrefDomain)
    let normalizedTextDomain := stripWww textDomain
    if normalizedTextDomain ≠ normalizedHrefDomain then
      some (extractTopLevel normalizedTextDomain, extractTopLevel normalizedHrefDomain)
    else
      none

/-- `checkHttpsDowngrade` from background.ts. -/
def checkHttpsDowngrade (b : Browser) (targetUrl : Url) (pageOrigin : String) : Bool :=
  match b.parseAbs pageOrigin with
  | none => false
  | some pageUrl =>
    (decide (pageUrl.protocol = "https:") || decide (pageUrl.protocol = "chrome-extension:")) &&
    decide (targetUrl.protocol = "http:")

/-- Return shape of `performLexicalChecks`. -/
structure LexicalResult where
  signals : List RiskSignal
  textMismatch : Option (String × String)
deriving DecidableEq, Repr

/-- `performLexicalChecks` from background.ts. -/
def performLexicalChecks (b : Browser) (url : Url) (anchorText pageOrigin : String) :
    LexicalResult :=
  let signals : List RiskSignal :=
    if detectHomograph url.hostname then
      [⟨RiskLevel.Amber, "Suspicious domain characters"⟩]
    else
      []
  let textMismatch := checkAnchorTextMismatch b.matchDomainPattern anchorText url.hostname
  let signals :=
    signals ++
      (if checkHttpsDowngrade b url pageOrigin then
        [⟨RiskLevel.Amber, "HTTP (not secure)"⟩]
      else
        [])
  ⟨signals, textMismatch⟩

/-- Content-type substrings treated as downloads in
`determineLinkTypeFromContentType`. -/
def downloadTypes : List String :=
  ["application/octet-stream", "application/x-msdownload", "application/x-msdos-program",
   "application/zip", "application/x-zip-compressed", "application/x-rar-compressed",
   "application/x-7z-compressed", "application/x-tar", "application/x-gzip"]

/-- `determineLinkTypeFromContentType` from background.ts. -/
def determineLinkTypeFromContentType (contentType : String)
    (contentDisposition : Option String) : LinkType :=
  let ct := jsToLower contentType
  let attachment : Bool :=
    match contentDisposition with
    | some cd => hasSubstr (jsToLower cd) "attachment"
    | none => false
  if attachment then
    LinkType.Download
  else if hasSubstr ct "application/pdf" then
    LinkType.PDF
  else if jsStartsWith ct "image/" then
    LinkType.Image
  else if jsStartsWith ct "video/" || hasSubstr ct "application/x-mpegurl" then
    LinkType.Video
  else if downloadTypes.any (fun t => hasSubstr ct t) then
    LinkType.Download
  else if hasSubstr ct "text/html" || hasSubstr ct "application/xhtml" then
    LinkType.Webpage
  else
    LinkType.Webpage

/-- Image extensions of `guesslinkTypeFromUrl`. -/
def imageExts : List String :=
  [".jpg", ".jpeg", ".png", ".gif", ".webp", ".svg", ".bmp", ".ico"]

/-- Video extensions of `guesslinkTypeFromUrl`. -/
def videoExts : List String :=
  [".mp4", ".webm", ".ogg", ".mov", ".avi", ".mkv", ".m4v"]

/-- Download extensions of `guesslinkTypeFromUrl`. -/
def downloadExts : List String :=
  [".zip", ".tar", ".gz", ".rar", ".7z", ".exe", ".dmg", ".deb", ".rpm"]

/-- `guesslinkTypeFromUrl` from background.ts (name kept, including its
lowercase l). -/
def guesslinkTypeFromUrl (b : Browser) (url : String) : Option LinkType :=
  match b.parseAbs url with
  | none => none
  | some urlObj =>
    let pathname := jsToLower urlObj.pathname
    if jsEndsWith pathname ".pdf" || hasSubstr pathname "/pdf/" then
      some LinkType.PDF
    else if imageExts.any (fun e => jsEndsWith pathname e) then
      some LinkType.Image
    else if videoExts.any (fun e => jsEndsWith pathname e) then
      some LinkType.Video
    else if downloadExts.any (fun e => jsEndsWith pathname e) then
      some LinkType.Download
    else
      none

/-- Return shape of `scoreRisk`. -/
structure RiskScore where
  risk : RiskLevel
  reasons : List String
deriving DecidableEq, Repr

/-- `scoreRisk` from background.ts: red beats amber beats green, keeping the
first two reasons of the winning severity. -/
def scoreRisk (signals : List RiskSignal) : RiskScore :=
  if signals.length = 0 then
    ⟨RiskLevel.Green, []⟩
  else
    let redSignals := signals.filter (fun s => decide (s.level = RiskLevel.Red))
    if 0 < redSignals.length then
      ⟨RiskLevel.Red, (redSignals.take 2).map (fun s => s.reason)⟩
    else
      let amberSignals := signals.filter (fun s => decide (s.level = RiskLevel.Amber))
      if 0 < amberSignals.length then
        ⟨RiskLevel.Amber, (amberSignals.take 2).map (fun s => s.reason)⟩
      else
        ⟨RiskLevel.Green, []⟩

/-- `decideFetchPlan` from background.ts. -/
def decideFetchPlan (type : LinkType) (risk : RiskLevel) : FetchPlan :=
  if type = LinkType.Blocked then
    FetchPlan.Blocked
  else if risk = RiskLevel.Red ∧ type = LinkType.Download then
    FetchPlan.Blocked
  else if type ∈ [LinkType.Mailto, LinkType.Tel, LinkType.Anchor, LinkType.Video] then
    FetchPlan.NoFetch
  else if type = LinkType.Image then
    FetchPlan.PartialGet
  else if type = LinkType.Webpage ∨ type = LinkType.PDF then
    FetchPlan.PartialGet
  else if type = LinkType.Download then
    FetchPlan.HeadOnly
  else
    FetchPlan.PartialGet

/-- Return shape of `performHeadRequest` (the `HeadResult` interface);
`contentLength` embeds the `parseInt`-ed `Content-Length` header. -/
structure HeadResult where
  finalUrl : String
  contentType : String
  contentLength : Option Nat
  contentDisposition : Option String
  redirectCount : Nat
  signals : List RiskSignal
deriving DecidableEq, Repr

/-- One HTTP response as observed by `performHeadRequest`: status plus the
headers the code reads. The network itself is an oracle
`net : String → Option NetResponse`; `none` models the fetch throwing
(timeout or network failure). -/
structure NetResponse where
  status : Nat
  location : Option String
  contentType : Option String
  contentLength : Option Nat
  contentDisposition : Option String
deriving DecidableEq, Repr

/-- The redirect cap of `performHeadRequest`. -/
def maxRedirects : Nat := 3

/-- The guessed-content-type fallback used by the catch branch and the
after-loop return of `performHeadRequest` (this variant has no Download
case). -/
def headFallbackNet (b : Browser) (currentUrl : String) (redirectCount : Nat)
    (signals : List RiskSignal) : HeadResult :=
  let guessedType := guesslinkTypeFromUrl b currentUrl
  let fallbackContentType :=
    match guessedType with
    | some LinkType.PDF => "application/pdf"
    | some LinkType.Image => "image/jpeg"
    | some LinkType.Video => "video/mp4"
    | _ => "text/html"
  ⟨currentUrl, fallbackContentType, none, none, redirectCount, signals⟩

/-- The guessed-content-type fallback of the `status === 405` branch of
`performHeadRequest` (this variant also maps Download to octet-stream). -/
def headFallback405 (b : Browser) (currentUrl : String) (redirectCount : Nat)
    (signals : List RiskSignal) : HeadResult :=
  let guessedType := guesslinkTypeFromUrl b currentUrl
  let fallbackContentType :=
    match guessedType with
    | some LinkType.PDF => "application/pdf"
    | some LinkType.Image => "image/jpeg"
    | some LinkType.Video => "video/mp4"
    | some LinkType.Download => "application/octet-stream"
    | _ => "text/html"
  ⟨currentUrl, fallbackContentType, none, none, redirectCount, signals⟩

/-- The redirect test of the loop body: a `Location` header is followed only
for 3xx statuses. -/
def redirTarget (response : NetResponse) : Option String :=
  if 300 ≤ response.status ∧ response.status < 400 then response.location else none

/-- The `while (redirectCount <= maxRedirects)` loop of `performHeadRequest`,
with fuel `maxRedirects + 1 - redirectCount`; fuel 0 is the loop condition
turning false, which falls through to the after-loop fallback. A `none` from
the resolver `new URL(location, currentUrl)` lands in the same catch branch
as a network failure. -/
def performHeadRequestLoop (b : Browser) (net : String → Option NetResponse) :
    Nat → String → Nat → List RiskSignal → HeadResult
  | 0, currentUrl, redirectCount, signals =>
    headFallbackNet b currentUrl redirectCount signals
  | Nat.succ fuel, currentUrl, redirectCount, signals =>
    match net currentUrl with
    | none => headFallbackNet b currentUrl redirectCount signals
    | some response =>
      if response.status = 405 then
        headFallback405 b currentUrl redirectCount signals
      else
        match redirTarget response with
        | some location =>
          if maxRedirects < redirectCount + 1 then
            headFallbackNet b currentUrl (redirectCount + 1)
              (signals ++ [⟨RiskLevel.Amber, "Redirects x" ++ toString (redirectCount + 1)⟩])
          else
            match b.parseURL location currentUrl with
            | none => headFallbackNet b currentUrl (redirectCount + 1) signals
            | some u => performHeadRequestLoop b net fuel u.href (redirectCount + 1) signals
        | none =>
          { finalUrl := currentUrl
            contentType := response.contentType.getD "text/html"
            contentLength := response.contentLength
            contentDisposition := response.contentDisposition
            redirectCount := redirectCount
            signals :=
              signals ++
                (if 2 ≤ redirectCount then
                  [⟨RiskLevel.Amber, "Redirects x" ++ toString redirectCount⟩]
                else
                  []) }

/-- `performHeadRequest` from background.ts. -/
def performHeadRequest (b : Browser) (net : String → Option NetResponse) (url : Url) :
    HeadResult :=
  performHeadRequestLoop b net (maxRedirects + 1) url.href 0 []

/-- The terminal Blocked/Red record that `performPreflightCheck` builds when
`normalizeAndGate` returns null. -/
def blockedUnsafeResult (href : String) : PreflightResult :=
  { domain := "blocked"
    type := LinkType.Blocked
    risk := RiskLevel.Red
    reasons := ["Unsafe scheme"]
    size := none
    finalUrl := href
    fetchPlan := FetchPlan.Blocked
    redirectCount := none
    textMismatch := none
    videoPlatform := none }

/-- Lines 1339-1386 of `performPreflightCheck`: resolve the final type from
the HEAD probe (content-type mapping, URL-extension override, magic-byte
sniff), score the accumulated signals, pick the fetch plan and assemble the
result. `new URL(headResult.finalUrl)` throwing surfaces as `Except.error`,
caught only by the message handler. `sniff` is the `performSniff` oracle and
`dvp` the `detectVideoPlatform` oracle. -/
def resolveProbedResult (b : Browser) (sniff : String → Option LinkType)
    (dvp : Url → Option VideoPlatform) (allSignals : List RiskSignal)
    (textMismatch : Option (String × String)) (headResult : HeadResult) :
    Except String PreflightResult :=
  let type0 := determineLinkTypeFromContentType headResult.contentType
    headResult.contentDisposition
  let type1 :=
    match guesslinkTypeFromUrl b headResult.finalUrl with
    | some urlBasedType => urlBasedType
    | none => type0
  let sniffStep : LinkType × List RiskSignal :=
    if type1 = LinkType.Download ∧ hasSubstr headResult.contentType "octet-stream" = true then
      match sniff headResult.finalUrl with
      | some sniffedType =>
        (sniffedType,
          if sniffedType = LinkType.Download then
            [⟨RiskLevel.Red, "Executable download"⟩]
          else
            [])
      | none => (type1, [])
    else
      (type1, [])
  let type2 := sniffStep.1
  let score := scoreRisk (allSignals ++ sniffStep.2)
  let fetchPlan := decideFetchPlan type2 score.risk
  match b.parseAbs headResult.finalUrl with
  | none => Except.error "invalid final URL"
  | some finalUrlObj =>
    let videoPlatform := if type2 = LinkType.Video then dvp finalUrlObj else none
    Except.ok
      { domain := extractDomain finalUrlObj
        type := type2
        risk := score.risk
        reasons := score.reasons
        size :=
          match headResult.contentLength with
          | some n => if n = 0 then none else some n
          | none => none
        finalUrl := headResult.finalUrl
        fetchPlan := fetchPlan
        redirectCount := some headResult.redirectCount
        textMismatch := textMismatch
        videoPlatform := videoPlatform }

/-- `performPreflightCheck` from background.ts: gate, scheme special cases,
same-page anchor, lexical checks, HEAD probe for http(s), unknown-protocol
rejection. -/
def performPreflightCheck (b : Browser) (net : String → Option NetResponse)
    (sniff : String → Option LinkType) (dvp : Url → Option VideoPlatform)
    (href anchorText pageOrigin : String) : Except String PreflightResult :=
  match normalizeAndGate b href pageOrigin with
  | none => Except.ok (blockedUnsafeResult href)
  | some (url, gateSignals) =>
    if url.protocol = "mailto:" then
      Except.ok
        { domain := if url.hostname = "" then "email" else url.hostname
          type := LinkType.Mailto
          risk := RiskLevel.Green
          reasons := []
          size := none
          finalUrl := url.href
          fetchPlan := FetchPlan.NoFetch
          redirectCount := none
          textMismatch := none
          videoPlatform := none }
    else if url.protocol = "tel:" then
      Except.ok
        { domain := if url.hostname = "" then "phone" else url.hostname
          type := LinkType.Tel
          risk := RiskLevel.Green
          reasons := []
          size := none
          finalUrl := url.href
          fetchPlan := FetchPlan.NoFetch
          redirectCount := none
          textMismatch := none
          videoPlatform := none }
    else if isSamePageAnchor b url pageOrigin then
      Except.ok
        { domain := extractDomain url
          type := LinkType.Anchor
          risk := RiskLevel.Green
          reasons := []
          size := none
          finalUrl := url.href
          fetchPlan := FetchPlan.NoFetch
          redirectCount := none
          textMismatch := none
          videoPlatform := none }
    else
      let lexicalResult := performLexicalChecks b url anchorText pageOrigin
      let allSignals := gateSignals ++ lexicalResult.signals
      if url.protocol = "http:" ∨ url.protocol = "https:" then
        let headResult := performHeadRequest b net url
        resolveProbedResult b sniff dvp (allSignals ++ headResult.signals)
          lexicalResult.textMismatch headResult
      else
        Except.ok
          { domain := extractDomain url
            type := LinkType.Blocked
            risk := RiskLevel.Red
            reasons := ["Unknown protocol"]
            size := none
            finalUrl := url.href
            fetchPlan := FetchPlan.Blocked
            redirectCount := none
            textMismatch := none
            videoPlatform := none }

/-- The response shape the `preflightCheck` message handler sends. -/
structure PreflightResponse where
  success : Bool
  result : Option PreflightResult
deriving DecidableEq, Repr

/-- The degraded record of the handler's `.catch` branch. -/
def degradedResult (href : String) : PreflightResult :=
  { domain := "unknown"
    type := LinkType.Webpage
    risk := RiskLevel.Amber
    reasons := ["Unable to check"]
    size := none
    finalUrl := href
    fetchPlan := FetchPlan.PartialGet
    redirectCount := none
    textMismatch := none
    videoPlatform := none }

/-- The `preflightCheck` branch of the `chrome.runtime.onMessage` listener:
serve the cache when it hits, otherwise run the classification and absorb any
rejection into the degraded Webpage/Amber result (note `success: true` even
then). -/
def handlePreflightCheck (cached : Option PreflightResult)
    (pf : Except String PreflightResult) (href : String) : PreflightResponse :=
  match cached with
  | some r => ⟨true, some r⟩
  | none =>
    match pf with
    | Except.ok result => ⟨true, some result⟩
    | Except.error _ => ⟨true, some (degradedResult href)⟩

/-- The `{ data, timestamp }` entries of `CacheManager`. -/
structure CacheEntry (T : Type) where
  data : T
  timestamp : Nat
deriving DecidableEq, Repr

/-- The in-memory `Map` of a `CacheManager`, as an association list with
JS-Map insertion semantics (keys unique, insertion order preserved). -/
abbrev CacheMap (T : Type) : Type := List (String × CacheEntry T)

/-- JS `Map.prototype.get`. -/
def cacheLookup {T : Type} : CacheMap T → String → Option (CacheEntry T)
  | [], _ => none
  | p :: rest, k => if p.1 = k then some p.2 else cacheLookup rest k

/-- JS `Map.prototype.set`: replace in place, else append. -/
def cacheSet {T : Type} : CacheMap T → String → CacheEntry T → CacheMap T
  | [], k, e => [(k, e)]
  | p :: rest, k, e => if p.1 = k then (k, e) :: rest else p :: cacheSet rest k e

/-- JS `Map.prototype.delete`. -/
def cacheDelete {T : Type} : CacheMap T → String → CacheMap T
  | [], _ => []
  | p :: rest, k => if p.1 = k then cacheDelete rest k else p :: cacheDelete rest k

/-- `CacheManager.get`, with `Date.now()` passed as `now`; returns the served
entry and the (possibly lazily evicted) memory cache. -/
def CacheManager.get {T : Type} (m : CacheMap T) (now : Nat) (k : String) :
    Option (CacheEntry T) × CacheMap T :=
  match cacheLookup m k with
  | some cached =>
    if now - cached.timestamp < CACHE_DURATION then
      (some cached, m)
    else
      (none, cacheDelete m k)
  | none => (none, m)

/-- The in-memory effect of `CacheManager.set` (the durable persist is
fire-and-forget; see `persistToStorage`). -/
def CacheManager.set {T : Type} (m : CacheMap T) (now : Nat) (k : String) (v : T) :
    CacheMap T :=
  cacheSet m k ⟨v, now⟩

/-- The memory effect of `CacheManager.cleanup`'s eviction pass: drop entries
whose age reached `CACHE_DURATION`. -/
def cleanupMem {T : Type} (m : CacheMap T) (now : Nat) : CacheMap T :=
  m.filter (fun p => decide (now - p.2.timestamp < CACHE_DURATION))

/-- `CacheManager.persistToStorage` together with the `cleanup` it calls on a
storage failure (which itself ends by calling `persistToStorage` again).
`outcomes` lists whether each successive `chrome.storage.local.set` attempt
succeeds; the recursion is fuelled by that list, so an exhausted list means
no further attempt is observed. Returns the memory cache after the retry
chain settles and the number of storage-write attempts made. The cache is
assumed initialized (`isInitialized`), as it is after construction. -/
def persistToStorage {T : Type} : List Bool → CacheMap T → Nat → CacheMap T × Nat
  | [], m, _ => (m, 0)
  | ok :: rest, m, now =>
    if ok then
      (m, 1)
    else
      let m' := cleanupMem m now
      let r := persistToStorage rest m' now
      (r.1, r.2 + 1)

/-- `CacheManager.set` followed by its fire-and-forget persist chain: the new
entry is written to memory immediately, then the persist/cleanup recursion
runs with the given storage outcomes. -/
def CacheManager.setAndPersist {T : Type} (outcomes : List Bool) (m : CacheMap T)
    (now : Nat) (k : String) (v : T) : CacheMap T × Nat :=
  persistToStorage outcomes (cacheSet m k ⟨v, now⟩) now

/-- The chunk-accumulation loop of `performPartialFetch`: while the total is
below `maxBytes`, read the next chunk, push it whole, and stop (cancelling
the stream) once the total reaches `maxBytes`. Bytes are `Nat`s, chunks are
byte lists, the stream is the list of chunks the server delivers. Returns
the pushed chunks and the final `totalLength`. -/
def accumulateChunks (maxBytes : Nat) : List (List Nat) → Nat → List (List Nat) × Nat
  | [], totalLength => ([], totalLength)
  | value :: rest, totalLength =>
    if totalLength < maxBytes then
      let totalLength' := totalLength + value.length
      if maxBytes ≤ totalLength' then
        ([value], totalLength')
      else
        let r := accumulateChunks maxBytes rest totalLength'
        (value :: r.1, r.2)
    else
      ([], totalLength)

/-- One GET response as observed by `performPartialFetch`: status, the
`Content-Type` header, and the chunk sequence of the body stream. -/
structure PartialFetchResponse where
  status : Nat
  contentType : Option String
  chunks : List (List Nat)
deriving DecidableEq, Repr

/-- `performPartialFetch` from background.ts, over the response oracle
(`none` models the fetch rejecting, e.g. the timeout abort): status 999 and
non-2xx raise; otherwise the body is streamed through `accumulateChunks` and
the combined buffer and content type are returned. -/
def performPartialFetch (_url : String) (maxBytes : Nat)
    (response : Option PartialFetchResponse) : Except String (List Nat × String) :=
  match response with
  | none => Except.error "Request timed out"
  | some resp =>
    if resp.status = 999 then
      Except.error "HTTP 999 - Cloudflare protection"
    else if ¬ (200 ≤ resp.status ∧ resp.status ≤ 299) then
      Except.error ("HTTP " ++ toString resp.status)
    else
      let contentType := resp.contentType.getD "text/html"
      let acc := accumulateChunks maxBytes resp.chunks 0
      Except.ok (acc.1.flatten, contentType)

/-- Restatement of the spec's fetch-planner priority table (§4.4), written
from the spec's words for comparison against `decideFetchPlan`. -/
def fetchPlanSpecTable (type : LinkType) (risk : RiskLevel) : FetchPlan :=
  if type = LinkType.Blocked then
    FetchPlan.Blocked
  else if type = LinkType.Download ∧ risk = RiskLevel.Red then
    FetchPlan.Blocked
  else if type ∈ [LinkType.Mailto, LinkType.Tel, LinkType.Anchor, LinkType.Video] then
    FetchPlan.NoFetch
  else if type ∈ [LinkType.Image, LinkType.Webpage, LinkType.PDF] then
    FetchPlan.PartialGet
  else if type = LinkType.Download then
    FetchPlan.HeadOnly
  else
    FetchPlan.PartialGet

/-- C3: the fetch planner is exactly the deterministic priority table of the
spec: Blocked wins, then Red Downloads are Blocked, then Mailto/Tel/Anchor/
Video get NoFetch, then Image/Webpage/PDF get PartialGet, remaining Downloads
get HeadOnly, and everything else gets PartialGet. -/
theorem decideFetchPlan_matches_spec_table :
    ∀ type risk, decideFetchPlan type risk = fetchPlanSpecTable type risk := by
  intro type risk
  cases type <;> cases risk <;> rfl

/-- C4: risk reduction over a finite signal list: any Red signal forces tier
Red with the first two Red reasons in list order; otherwise any Amber signal
gives Amber with the first two Amber reasons; otherwise Green with no
reasons. Appending a Red signal to a list that scored Amber yields Red, and
appending nothing never changes (hence never lowers) the tier. -/
theorem scoreRisk_reduction_spec (signals : List RiskSignal) (r : String) :
    (signals.filter (fun s => decide (s.level = RiskLevel.Red)) ≠ [] →
      scoreRisk signals =
        ⟨RiskLevel.Red,
          ((signals.filter (fun s => decide (s.level = RiskLevel.Red))).take 2).map
            (fun s => s.reason)⟩)
    ∧ (signals.filter (fun s => decide (s.level = RiskLevel.Red)) = [] →
        signals.filter (fun s => decide (s.level = RiskLevel.Amber)) ≠ [] →
        scoreRisk signals =
          ⟨RiskLevel.Amber,
            ((signals.filter (fun s => decide (s.level = RiskLevel.Amber))).take 2).map
              (fun s => s.reason)⟩)
    ∧ (signals.filter (fun s => decide (s.level = RiskLevel.Red)) = [] →
        signals.filter (fun s => decide (s.level = RiskLevel.Amber)) = [] →
        scoreRisk signals = ⟨RiskLevel.Green, []⟩)
    ∧ ((scoreRisk signals).risk = RiskLevel.Amber →
        (scoreRisk (signals ++ [⟨RiskLevel.Red, r⟩])).risk = RiskLevel.Red)
    ∧ scoreRisk (signals ++ []) = scoreRisk signals := by
  have hred : ∀ sg : List RiskSignal,
      sg.filter (fun s => decide (s.level = RiskLevel.Red)) ≠ [] →
      scoreRisk sg =
        ⟨RiskLevel.Red,
          ((sg.filter (fun s => decide (s.level = RiskLevel.Red))).take 2).map
            (fun s => s.reason)⟩ := by
    intro sg h
    have h0 : ¬ sg.length = 0 := by
      intro h0
      rw [List.length_eq_zero] at h0
      subst h0
      simp at h
    have h1 : 0 < (sg.filter (fun s => decide (s.level = RiskLevel.Red))).length :=
      List.length_pos.mpr h
    simp only [scoreRisk, if_neg h0, if_pos h1]
  refine ⟨hred signals, ?_, ?_, ?_, ?_⟩
  · intro hr ha
    have h0 : ¬ signals.length = 0 := by
      intro h0
      rw [List.length_eq_zero] at h0
      subst h0
      simp at ha
    have h1 : ¬ 0 < (signals.filter (fun s => decide (s.level = RiskLevel.Red))).length := by
      rw [hr]
      simp
    have h2 : 0 < (signals.filter (fun s => decide (s.level = RiskLevel.Amber))).length :=
      List.length_pos.mpr ha
    simp only [scoreRisk, if_neg h0, if_neg h1, if_pos h2]
  · intro hr ha
    by_cases h0 : signals.length = 0
    · simp only [scoreRisk, if_pos h0]
    · have h1 : ¬ 0 < (signals.filter (fun s => decide (s.level = RiskLevel.Red))).length := by
        rw [hr]
        simp
      have h2 : ¬ 0 < (signals.filter (fun s => decide (s.level = RiskLevel.Amber))).length := by
        rw [ha]
        simp
      simp only [scoreRisk, if_neg h0, if_neg h1, if_neg h2]
  · intro _
    have hne : (signals ++ [RiskSignal.mk RiskLevel.Red r]).filter
        (fun s => decide (s.level = RiskLevel.Red)) ≠ [] := by
      rw [List.filter_append]
      simp
    rw [hred _ hne]
  · rw [List.append_nil]

/-- Witness for `scoreRisk_reduction_spec` at concrete signal lists: a lone
Amber signal scores Amber, and appending a Red signal to it scores Red. -/
theorem scoreRisk_reduction_spec_witness :
    scoreRisk [⟨RiskLevel.Amber, "a"⟩] = ⟨RiskLevel.Amber, ["a"]⟩
    ∧ (scoreRisk ([⟨RiskLevel.Amber, "a"⟩] ++ [⟨RiskLevel.Red, "x"⟩])).risk = RiskLevel.Red := by
  have h := scoreRisk_reduction_spec [⟨RiskLevel.Amber, "a"⟩] "x"
  refine ⟨?_, ?_⟩
  · have := h.2.1 (by decide) (by decide)
    simpa using this
  · exact h.2.2.2.1 (by decide)

/-- A fresh `Map.set` is immediately visible to `Map.get`. -/
lemma cacheLookup_cacheSet_self {T : Type} (m : CacheMap T) (k : String) (e : CacheEntry T) :
    cacheLookup (cacheSet m k e) k = some e := by
  induction m with
  | nil => simp [cacheSet, cacheLookup]
  | cons p rest ih =>
    by_cases h : p.1 = k
    · simp [cacheSet, h, cacheLookup]
    · simp [cacheSet, h, cacheLookup, ih]

/-- `Map.delete` removes the key. -/
lemma cacheLookup_cacheDelete_self {T : Type} (m : CacheMap T) (k : String) :
    cacheLookup (cacheDelete m k) k = none := by
  induction m with
  | nil => simp [cacheDelete, cacheLookup]
  | cons p rest ih =>
    by_cases h : p.1 = k
    · simp [cacheDelete, h, ih]
    · simp [cacheDelete, h, cacheLookup, ih]

/-- C8: TTL cache round-trip: a `set(k, v)` at time `now` followed by a
`get(k)` at any time `now'` within the 5-minute TTL returns `v` with its
write timestamp unchanged; and a `get` on an entry whose age exceeds the TTL
returns absent and lazily evicts the entry from the in-memory mirror. -/
theorem cache_ttl_roundtrip {T : Type} (m : CacheMap T) (k : String) (v : T)
    (now now' : Nat) (e : CacheEntry T) :
    (now' - now < CACHE_DURATION →
      (CacheManager.get (CacheManager.set m now k v) now' k).1 = some ⟨v, now⟩)
    ∧ (cacheLookup m k = some e → CACHE_DURATION < now - e.timestamp →
        (CacheManager.get m now k).1 = none
        ∧ cacheLookup (CacheManager.get m now k).2 k = none) := by
  constructor
  · intro hage
    have hl := cacheLookup_cacheSet_self m k (CacheEntry.mk v now)
    simp only [CacheManager.get, CacheManager.set, hl, hage, if_pos]
  · intro hl hage
    have hno : ¬ now - e.timestamp < CACHE_DURATION := by omega
    simp only [CacheManager.get, hl, if_neg hno]
    exact ⟨trivial, cacheLookup_cacheDelete_self m k⟩

/-- Witness for `cache_ttl_roundtrip`: a concrete round-trip within the TTL,
and a concrete stale entry evicted on `get`. -/
theorem cache_ttl_roundtrip_witness :
    (CacheManager.get (CacheManager.set ([] : CacheMap String) 1000 "k" "v") 2000 "k").1
      = some ⟨"v", 1000⟩
    ∧ (CacheManager.get ([("k", ⟨"v", 0⟩)] : CacheMap String) 300001 "k").1 = none
    ∧ cacheLookup (CacheManager.get ([("k", ⟨"v", 0⟩)] : CacheMap String) 300001 "k").2 "k"
      = none := by
  have h1 := (cache_ttl_roundtrip ([] : CacheMap String) "k" "v" 1000 2000
    (CacheEntry.mk "v" 0)).1 (by decide)
  have h2 := (cache_ttl_roundtrip ([("k", ⟨"v", 0⟩)] : CacheMap String) "k" "v" 300001 2000
    (CacheEntry.mk "v" 0)).2 (by decide) (by decide)
  exact ⟨h1, h2.1, h2.2⟩

/-- Filtering twice with the same predicate is the same as filtering once. -/
lemma cleanupMem_idem {T : Type} (m : CacheMap T) (now : Nat) :
    cleanupMem (cleanupMem m now) now = cleanupMem m now := by
  simp only [cleanupMem, List.filter_filter]
  congr 1
  funext p
  cases h : decide (now - p.2.timestamp < CACHE_DURATION) <;> simp [h]

/-- An entry still within the TTL survives a cleanup pass. -/
lemma cacheLookup_cleanupMem {T : Type} (m : CacheMap T) (now : Nat) (k : String)
    (e : CacheEntry T) (hl : cacheLookup m k = some e)
    (hfresh : now - e.timestamp < CACHE_DURATION) :
    cacheLookup (cleanupMem m now) k = some e := by
  induction m with
  | nil => simp [cacheLookup] at hl
  | cons p rest ih =>
    by_cases h : p.1 = k
    · rw [cacheLookup, if_pos h] at hl
      obtain rfl : p.2 = e := Option.some.inj hl
      have hkeep : decide (now - p.2.timestamp < CACHE_DURATION) = true := by
        simpa using hfresh
      simp only [cleanupMem, List.filter_cons, hkeep, if_pos]
      rw [cacheLookup, if_pos h]
    · rw [cacheLookup, if_neg h] at hl
      have ih' := ih hl
      simp only [cleanupMem] at ih' ⊢
      rw [List.filter_cons]
      cases hkeep : decide (now - p.2.timestamp < CACHE_DURATION) with
      | false => simpa [hkeep] using ih'
      | true => simpa [hkeep, cacheLookup, h] using ih'

/-- An entry still within the TTL survives the whole persist/cleanup retry
chain, whatever the durable store does. -/
lemma cacheLookup_persistToStorage {T : Type} (outcomes : List Bool) (m : CacheMap T)
    (now : Nat) (k : String) (e : CacheEntry T) (hl : cacheLookup m k = some e)
    (hfresh : now - e.timestamp < CACHE_DURATION) :
    cacheLookup (persistToStorage outcomes m now).1 k = some e := by
  induction outcomes generalizing m with
  | nil => simpa [persistToStorage] using hl
  | cons ok rest ih =>
    cases ok with
    | true => simpa [persistToStorage] using hl
    | false =>
      simp only [persistToStorage]
      exact ih (cleanupMem m now) (cacheLookup_cleanupMem m now k e hl hfresh)

/-- C9 counterexample: with a durable store that fails twice and then
succeeds, the persist chain makes a third storage-write attempt, so the
persist is not retried exactly once (which would allow at most two
attempts); along the way the expired entry is compacted away. -/
theorem persist_retry_counterexample :
    (persistToStorage [false, false, true] ([("old", ⟨"v", 0⟩)] : CacheMap String)
      CACHE_DURATION).2 = 3
    ∧ (persistToStorage [false, false, true] ([("old", ⟨"v", 0⟩)] : CacheMap String)
        CACHE_DURATION).1 = []
    ∧ ¬ (3 : Nat) ≤ 2 := by
  refine ⟨?_, ?_, by decide⟩ <;> decide

/-- C9 amended: on persistence failure the cache compacts (drops entries at
or past the TTL) and retries, repeating until an attempt succeeds — one
attempt per store outcome, not exactly one retry; the failure is never
surfaced to the caller of `set`, whose freshly written entry stays visible
in the in-memory mirror whatever the store does. -/
theorem persist_retries_until_success {T : Type} (m : CacheMap T) (now : Nat)
    (fails : Nat) (k : String) (v : T) (outcomes : List Bool) :
    (persistToStorage (List.replicate fails false ++ [true]) m now).2 = fails + 1
    ∧ (0 < fails →
        (persistToStorage (List.replicate fails false ++ [true]) m now).1 = cleanupMem m now)
    ∧ cacheLookup (CacheManager.setAndPersist outcomes m now k v).1 k = some ⟨v, now⟩ := by
  refine ⟨?_, ?_, ?_⟩
  · induction fails generalizing m with
    | zero => simp [persistToStorage]
    | succ n ih =>
      simp only [List.replicate_succ, List.cons_append, persistToStorage, Bool.false_eq_true,
        if_false]
      exact congrArg (fun x => x + 1) (ih (cleanupMem m now))
  · induction fails generalizing m with
    | zero => intro h; omega
    | succ n ih =>
      intro _
      simp only [List.replicate_succ, List.cons_append, persistToStorage, Bool.false_eq_true,
        if_false]
      cases n with
      | zero => simp [persistToStorage]
      | succ n' =>
        have h2 := ih (cleanupMem m now) (Nat.succ_pos n')
        rw [cleanupMem_idem] at h2
        exact h2
  · have hfresh : now - now < CACHE_DURATION := by
      simp [CACHE_DURATION]
    exact cacheLookup_persistToStorage outcomes _ now k ⟨v, now⟩
      (cacheLookup_cacheSet_self m k ⟨v, now⟩) hfresh

/-- Witness for `persist_retries_until_success`: two failures then success
makes three attempts with a compacted mirror, and a `set` under a failing
store still leaves the fresh entry readable. -/
theorem persist_retries_until_success_witness :
    (persistToStorage (List.replicate 2 false ++ [true]) ([] : CacheMap String) 0).2 = 2 + 1
    ∧ (persistToStorage (List.replicate 2 false ++ [true]) ([] : CacheMap String) 0).1
      = cleanupMem ([] : CacheMap String) 0
    ∧ cacheLookup (CacheManager.setAndPersist [false] ([] : CacheMap String) 0 "k" "v").1 "k"
      = some ⟨"v", 0⟩ := by
  have h := persist_retries_until_success ([] : CacheMap String) 0 2 "k" "v" [false]
  exact ⟨h.1, h.2.1 (by decide), h.2.2⟩

/-- C7 counterexample: a single 16-byte chunk against a 10-byte budget is
returned whole, so a successful `performPartialFetch` can deliver more than
`maxBytes` bytes. -/
theorem partial_fetch_cap_counterexample :
    (performPartialFetch "http://e/x" 10
        (some ⟨200, none, [List.replicate 16 0]⟩)).toOption.map (fun p => p.1.length)
      = some 16
    ∧ ¬ (16 : Nat) ≤ 10 := by
  exact ⟨by decide, by decide⟩

/-- The accumulation loop overshoots the budget by less than one chunk: if
every chunk is at most `c` bytes and the running total is still below the
budget, the final total stays at most `maxBytes - 1 + c`. -/
lemma accumulateChunks_total_le (maxBytes c : Nat) :
    ∀ (stream : List (List Nat)) (total : Nat),
      (∀ ch ∈ stream, ch.length ≤ c) → total < maxBytes →
      (accumulateChunks maxBytes stream total).2 ≤ maxBytes - 1 + c := by
  intro stream
  induction stream with
  | nil =>
    intro total _ htot
    simp only [accumulateChunks]
    omega
  | cons value rest ih =>
    intro total hch htot
    have hv : value.length ≤ c := hch value (List.mem_cons_self value rest)
    simp only [accumulateChunks, if_pos htot]
    by_cases hfull : maxBytes ≤ total + value.length
    · simp only [if_pos hfull]
      omega
    · simp only [if_neg hfull]
      exact ih (total + value.length)
        (fun ch h => hch ch (List.mem_cons_of_mem value h)) (by omega)

/-- The final total of the accumulation loop is the initial total plus the
length of the flattened pushed chunks. -/
lemma accumulateChunks_flatten_length (maxBytes : Nat) :
    ∀ (stream : List (List Nat)) (total : Nat),
      total + (accumulateChunks maxBytes stream total).1.flatten.length
        = (accumulateChunks maxBytes stream total).2 := by
  intro stream
  induction stream with
  | nil =>
    intro total
    simp [accumulateChunks]
  | cons value rest ih =>
    intro total
    by_cases htot : total < maxBytes
    · simp only [accumulateChunks, if_pos htot]
      by_cases hfull : maxBytes ≤ total + value.length
      · simp only [if_pos hfull]
        simp
      · simp only [if_neg hfull]
        have := ih (total + value.length)
        simp only [List.flatten_cons, List.length_append]
        omega
    · simp [accumulateChunks, if_neg htot]

/-- C7 amended: the byte ceiling is enforced only up to the granularity of
one stream chunk: a successful `performPartialFetch` returns at most
`maxBytes - 1` bytes plus one final chunk, i.e. at most `maxBytes - 1 + c`
bytes when every chunk the server delivers is at most `c` bytes (the loop
stops reading once the total reaches `maxBytes`, but pushes the final chunk
whole). -/
theorem partial_fetch_cap_amended (url : String) (maxBytes c status : Nat)
    (ct : Option String) (chunks : List (List Nat)) (bytes : List Nat) (ctOut : String)
    (hpos : 1 ≤ maxBytes) (hch : ∀ ch ∈ chunks, ch.length ≤ c)
    (hok : performPartialFetch url maxBytes (some ⟨status, ct, chunks⟩)
      = Except.ok (bytes, ctOut)) :
    bytes.length ≤ maxBytes - 1 + c := by
  simp only [performPartialFetch] at hok
  by_cases h999 : status = 999
  · rw [if_pos h999] at hok
    exact absurd hok (by simp)
  · rw [if_neg h999] at hok
    by_cases hst : 200 ≤ status ∧ status ≤ 299
    · rw [if_neg (by simpa using hst)] at hok
      have hbytes : bytes = (accumulateChunks maxBytes chunks 0).1.flatten := by
        have := Except.ok.inj hok
        exact (congrArg Prod.fst this).symm
      have h1 := accumulateChunks_flatten_length maxBytes chunks 0
      have h2 := accumulateChunks_total_le maxBytes c chunks 0 hch (by omega)
      rw [hbytes]
      omega
    · rw [if_pos (by simpa using hst)] at hok
      exact absurd hok (by simp)

/-- Witness for `partial_fetch_cap_amended`: the 16-byte chunk against the
10-byte budget stays within `10 - 1 + 16`. -/
theorem partial_fetch_cap_amended_witness :
    (List.replicate 16 (0 : Nat)).length ≤ 10 - 1 + 16 := by
  exact partial_fetch_cap_amended "http://e/x" 10 16 200 none [List.replicate 16 0]
    (List.replicate 16 0) "text/html" (by decide) (by decide) (by rfl)

/-- The gate rejects any parsed URL whose scheme is in the dangerous set. -/
lemma normalizeAndGate_eq_none_of_unsafe_scheme (b : Browser) (href pageOrigin : String)
    (u : Url) (hp : b.parseURL href pageOrigin = some u)
    (hu : u.protocol ∈ dangerousSchemes) :
    normalizeAndGate b href pageOrigin = none := by
  simp only [normalizeAndGate, hp]
  rw [if_pos]
  rw [List.any_eq_true]
  exact ⟨u.protocol, hu, by simp⟩

/-- The gate rejects any href that fails URL parsing. -/
lemma normalizeAndGate_eq_none_of_parse_failure (b : Browser) (href pageOrigin : String)
    (hp : b.parseURL href pageOrigin = none) :
    normalizeAndGate b href pageOrigin = none := by
  simp only [normalizeAndGate, hp]

/-- A null gate short-circuits the whole orchestrator into the single
Blocked/Red record. -/
lemma performPreflightCheck_of_gate_none (b : Browser)
    (net : String → Option NetResponse) (sniff : String → Option LinkType)
    (dvp : Url → Option VideoPlatform) (href anchorText pageOrigin : String)
    (hg : normalizeAndGate b href pageOrigin = none) :
    performPreflightCheck b net sniff dvp href anchorText pageOrigin
      = Except.ok (blockedUnsafeResult href) := by
  simp only [performPreflightCheck, hg]

/-- C1: an href whose parsed scheme is in the unsafe set (javascript:,
data:, file:, vbscript:) always classifies to the Blocked/Red record with
reasons ["Unsafe scheme"] and fetchPlan Blocked, whatever the anchor text,
and the result is identical under any network, sniff or video-platform
oracle and any anchor text — the gate short-circuits before any probe. -/
theorem unsafe_scheme_always_blocked (b : Browser)
    (net net' : String → Option NetResponse) (sniff sniff' : String → Option LinkType)
    (dvp dvp' : Url → Option VideoPlatform)
    (href anchorText anchorText' pageOrigin : String) (u : Url)
    (hp : b.parseURL href pageOrigin = some u)
    (hu : u.protocol ∈ dangerousSchemes) :
    performPreflightCheck b net sniff dvp href anchorText pageOrigin
      = Except.ok (blockedUnsafeResult href)
    ∧ performPreflightCheck b net sniff dvp href anchorText pageOrigin
      = performPreflightCheck b net' sniff' dvp' href anchorText' pageOrigin := by
  have hg := normalizeAndGate_eq_none_of_unsafe_scheme b href pageOrigin u hp hu
  have h1 := performPreflightCheck_of_gate_none b net sniff dvp href anchorText pageOrigin hg
  have h2 := performPreflightCheck_of_gate_none b net' sniff' dvp' href anchorText' pageOrigin hg
  exact ⟨h1, h1.trans h2.symm⟩

/-- Concrete javascript: URL object for the C1 witness. -/
def urlJs : Url :=
  ⟨"javascript:", "", "alert(1)", "", "", "javascript:alert(1)"⟩

/-- Browser oracle for the C1 witness: every parse yields `urlJs`. -/
def browserJs : Browser :=
  ⟨fun _ _ => some urlJs, fun _ => some urlJs, fun _ => none⟩

/-- Witness for `unsafe_scheme_always_blocked` at `javascript:alert(1)`,
with two different network/sniff oracles. -/
theorem unsafe_scheme_always_blocked_witness :
    performPreflightCheck browserJs (fun _ => none) (fun _ => none) (fun _ => none)
      "javascript:alert(1)" "click me" "https://page.com/"
      = Except.ok (blockedUnsafeResult "javascript:alert(1)")
    ∧ performPreflightCheck browserJs (fun _ => none) (fun _ => none) (fun _ => none)
        "javascript:alert(1)" "click me" "https://page.com/"
      = performPreflightCheck browserJs
          (fun _ => some ⟨200, none, some "text/html", none, none⟩)
          (fun _ => some LinkType.Download) (fun _ => none)
          "javascript:alert(1)" "other text" "https://page.com/" := by
  exact unsafe_scheme_always_blocked browserJs (fun _ => none)
    (fun _ => some ⟨200, none, some "text/html", none, none⟩)
    (fun _ => none) (fun _ => some LinkType.Download) (fun _ => none) (fun _ => none)
    "javascript:alert(1)" "click me" "other text" "https://page.com/" urlJs rfl
    (by decide)

/-- C10: an href whose URL parsing fails entirely classifies to exactly the
same Blocked/Red record as the unsafe-scheme case — reasons
["Unsafe scheme"], fetchPlan Blocked, finalUrl the raw href — because both
gate branches return null and the orchestrator maps null to this one
result. -/
theorem parse_failure_indistinguishable_from_unsafe (b b2 : Browser)
    (net net2 : String → Option NetResponse) (sniff sniff2 : String → Option LinkType)
    (dvp dvp2 : Url → Option VideoPlatform)
    (href anchorText anchorText2 pageOrigin pageOrigin2 : String) (u2 : Url)
    (hp : b.parseURL href pageOrigin = none)
    (hp2 : b2.parseURL href pageOrigin2 = some u2)
    (hu2 : u2.protocol ∈ dangerousSchemes) :
    performPreflightCheck b net sniff dvp href anchorText pageOrigin
      = Except.ok (blockedUnsafeResult href)
    ∧ performPreflightCheck b net sniff dvp href anchorText pageOrigin
      = performPreflightCheck b2 net2 sniff2 dvp2 href anchorText2 pageOrigin2 := by
  have h1 := performPreflightCheck_of_gate_none b net sniff dvp href anchorText pageOrigin
    (normalizeAndGate_eq_none_of_parse_failure b href pageOrigin hp)
  have h2 := performPreflightCheck_of_gate_none b2 net2 sniff2 dvp2 href anchorText2 pageOrigin2
    (normalizeAndGate_eq_none_of_unsafe_scheme b2 href pageOrigin2 u2 hp2 hu2)
  exact ⟨h1, h1.trans h2.symm⟩

/-- Browser oracle for the C10 witness: URL parsing always throws. -/
def browserNoParse : Browser :=
  ⟨fun _ _ => none, fun _ => none, fun _ => none⟩

/-- Witness for `parse_failure_indistinguishable_from_unsafe`: a malformed
href under a throwing parser yields the very record of the unsafe-scheme
case. -/
theorem parse_failure_indistinguishable_from_unsafe_witness :
    performPreflightCheck browserNoParse (fun _ => none) (fun _ => none) (fun _ => none)
      "http://[bad" "text" "https://page.com/"
      = Except.ok (blockedUnsafeResult "http://[bad")
    ∧ performPreflightCheck browserNoParse (fun _ => none) (fun _ => none) (fun _ => none)
        "http://[bad" "text" "https://page.com/"
      = performPreflightCheck browserJs (fun _ => none) (fun _ => none) (fun _ => none)
          "http://[bad" "other" "https://page.com/" := by
  exact parse_failure_indistinguishable_from_unsafe browserNoParse browserJs
    (fun _ => none) (fun _ => none) (fun _ => none) (fun _ => none) (fun _ => none)
    (fun _ => none) "http://[bad" "text" "other" "https://page.com/" "https://page.com/"
    urlJs rfl rfl (by decide)

/-- C2: the preflight message-handler boundary always answers with
`success = true` and a complete result — the cached record on a hit, the
classification result when it resolves, and exactly the degraded
Webpage/Amber/"Unable to check"/PartialGet record when the classification
fails internally — so no partial value or error ever propagates to the
caller. -/
theorem preflight_handler_total_and_degrades (b : Browser)
    (net : String → Option NetResponse) (sniff : String → Option LinkType)
    (dvp : Url → Option VideoPlatform) (href anchorText pageOrigin : String)
    (cached : Option PreflightResult) :
    (handlePreflightCheck cached
        (performPreflightCheck b net sniff dvp href anchorText pageOrigin) href).success
      = true
    ∧ (handlePreflightCheck cached
        (performPreflightCheck b net sniff dvp href anchorText pageOrigin) href).result.isSome
      = true
    ∧ (∀ e, cached = none →
        performPreflightCheck b net sniff dvp href anchorText pageOrigin = Except.error e →
        (handlePreflightCheck cached
            (performPreflightCheck b net sniff dvp href anchorText pageOrigin) href).result
          = some (degradedResult href)) := by
  refine ⟨?_, ?_, ?_⟩
  · cases cached with
    | some r => rfl
    | none =>
      cases hpf : performPreflightCheck b net sniff dvp href anchorText pageOrigin with
      | ok r => simp [handlePreflightCheck, hpf]
      | error e => simp [handlePreflightCheck, hpf]
  · cases cached with
    | some r => rfl
    | none =>
      cases hpf : performPreflightCheck b net sniff dvp href anchorText pageOrigin with
      | ok r => simp [handlePreflightCheck, hpf]
      | error e => simp [handlePreflightCheck, hpf]
  · intro e hc hpf
    subst hc
    simp [handlePreflightCheck, hpf]

/-- URL object for the C2 witness: a well-formed https target whose final
URL fails to re-parse, making the classification reject internally. -/
def urlHttpsW : Url :=
  ⟨"https:", "a.com", "/b", "", "", "https://a.com/b"⟩

/-- Browser oracle for the C2 witness: relative parsing succeeds but
absolute re-parsing (`new URL(finalUrl)`) always throws. -/
def browserHalfParse : Browser :=
  ⟨fun _ _ => some urlHttpsW, fun _ => none, fun _ => none⟩

/-- Witness for `preflight_handler_total_and_degrades`: a classification
that rejects internally is answered with the degraded record and
`success = true`. -/
theorem preflight_handler_total_and_degrades_witness :
    (handlePreflightCheck none
        (performPreflightCheck browserHalfParse (fun _ => none) (fun _ => none)
          (fun _ => none) "https://a.com/b" "" "https://page.com/") "https://a.com/b").success
      = true
    ∧ (handlePreflightCheck none
        (performPreflightCheck browserHalfParse (fun _ => none) (fun _ => none)
          (fun _ => none) "https://a.com/b" "" "https://page.com/") "https://a.com/b").result
      = some (degradedResult "https://a.com/b") := by
  have h := preflight_handler_total_and_degrades browserHalfParse (fun _ => none)
    (fun _ => none) (fun _ => none) "https://a.com/b" "" "https://page.com/" none
  exact ⟨h.1, h.2.2 "invalid final URL" rfl (by rfl)⟩

/-- One loop iteration of `performHeadRequest` that observes a followable
redirect below the cap re-issues the HEAD at the resolved location. -/
lemma headLoop_step_redirect (b : Browser) (net : String → Option NetResponse)
    (fuel : Nat) (currentUrl : String) (redirectCount : Nat) (signals : List RiskSignal)
    (resp : NetResponse) (location : String) (u : Url)
    (hn : net currentUrl = some resp) (h405 : resp.status ≠ 405)
    (hl : redirTarget resp = some location)
    (hcap : redirectCount + 1 ≤ maxRedirects)
    (hp : b.parseURL location currentUrl = some u) :
    performHeadRequestLoop b net (fuel + 1) currentUrl redirectCount signals
      = performHeadRequestLoop b net fuel u.href (redirectCount + 1) signals := by
  simp only [performHeadRequestLoop, hn, hl, hp, if_neg h405,
    if_neg (by omega : ¬ maxRedirects < redirectCount + 1)]

/-- One loop iteration of `performHeadRequest` that observes a redirect past
the cap pushes the Amber cap signal and stops following. -/
lemma headLoop_step_cap (b : Browser) (net : String → Option NetResponse)
    (fuel : Nat) (currentUrl : String) (redirectCount : Nat) (signals : List RiskSignal)
    (resp : NetResponse) (location : String)
    (hn : net currentUrl = some resp) (h405 : resp.status ≠ 405)
    (hl : redirTarget resp = some location)
    (hcap : maxRedirects < redirectCount + 1) :
    performHeadRequestLoop b net (fuel + 1) currentUrl redirectCount signals
      = headFallbackNet b currentUrl (redirectCount + 1)
          (signals ++ [⟨RiskLevel.Amber, "Redirects x" ++ toString (redirectCount + 1)⟩]) := by
  simp only [performHeadRequestLoop, hn, hl, if_neg h405, if_pos hcap]

/-- One loop iteration of `performHeadRequest` that observes a non-redirect,
non-405 response returns it, adding the Amber signal when at least two
redirects were observed. -/
lemma headLoop_step_terminal (b : Browser) (net : String → Option NetResponse)
    (fuel : Nat) (currentUrl : String) (redirectCount : Nat) (signals : List RiskSignal)
    (resp : NetResponse)
    (hn : net currentUrl = some resp) (h405 : resp.status ≠ 405)
    (hl : redirTarget resp = none) :
    performHeadRequestLoop b net (fuel + 1) currentUrl redirectCount signals
      = { finalUrl := currentUrl
          contentType := resp.contentType.getD "text/html"
          contentLength := resp.contentLength
          contentDisposition := resp.contentDisposition
          redirectCount := redirectCount
          signals :=
            signals ++
              (if 2 ≤ redirectCount then
                [⟨RiskLevel.Amber, "Redirects x" ++ toString redirectCount⟩]
              else
                []) } := by
  simp only [performHeadRequestLoop, hn, hl, if_neg h405]

/-- C5: redirect behaviour of the HEAD prober. A chain of exactly 3
redirects ending in a 200 yields `redirectCount = 3`, final URL at the third
target, and only the Amber "Redirects x3" signal of the ≥2-redirects rule —
no cap signal. A chain with a 4th redirect observed yields the Amber cap
signal "Redirects x4" and stops following at hop 3 (the final URL stays at
the third target). A chain of exactly 2 redirects ending in 200 triggers
the ≥2-redirects Amber signal "Redirects x2". -/
theorem performHeadRequest_redirect_chains (b : Browser)
    (netA netB netC : String → Option NetResponse)
    (u0 u1 u2 u3 : Url) (l1 l2 l3 l4 : String)
    (ct0 ct1 ct2 ct3 : Option String) (cl0 cl1 cl2 cl3 : Option Nat)
    (cd0 cd1 cd2 cd3 : Option String) (locF : Option String)
    (hp1 : b.parseURL l1 u0.href = some u1)
    (hp2 : b.parseURL l2 u1.href = some u2)
    (hp3 : b.parseURL l3 u2.href = some u3)
    (hA0 : netA u0.href = some ⟨301, some l1, ct0, cl0, cd0⟩)
    (hA1 : netA u1.href = some ⟨301, some l2, ct1, cl1, cd1⟩)
    (hA2 : netA u2.href = some ⟨301, some l3, ct2, cl2, cd2⟩)
    (hA3 : netA u3.href = some ⟨200, locF, ct3, cl3, cd3⟩)
    (hB0 : netB u0.href = some ⟨301, some l1, ct0, cl0, cd0⟩)
    (hB1 : netB u1.href = some ⟨301, some l2, ct1, cl1, cd1⟩)
    (hB2 : netB u2.href = some ⟨301, some l3, ct2, cl2, cd2⟩)
    (hB3 : netB u3.href = some ⟨301, some l4, ct3, cl3, cd3⟩)
    (hC0 : netC u0.href = some ⟨301, some l1, ct0, cl0, cd0⟩)
    (hC1 : netC u1.href = some ⟨301, some l2, ct1, cl1, cd1⟩)
    (hC2 : netC u2.href = some ⟨200, locF, ct2, cl2, cd2⟩) :
    ((performHeadRequest b netA u0).redirectCount = 3
      ∧ (performHeadRequest b netA u0).signals = [⟨RiskLevel.Amber, "Redirects x3"⟩]
      ∧ (performHeadRequest b netA u0).finalUrl = u3.href)
    ∧ ((performHeadRequest b netB u0).redirectCount = 4
      ∧ (performHeadRequest b netB u0).signals = [⟨RiskLevel.Amber, "Redirects x4"⟩]
      ∧ (performHeadRequest b netB u0).finalUrl = u3.href)
    ∧ ((performHeadRequest b netC u0).redirectCount = 2
      ∧ (performHeadRequest b netC u0).signals = [⟨RiskLevel.Amber, "Redirects x2"⟩]
      ∧ (performHeadRequest b netC u0).finalUrl = u2.href) := by
  have eA : performHeadRequest b netA u0
      = ⟨u3.href, ct3.getD "text/html", cl3, cd3, 3, [⟨RiskLevel.Amber, "Redirects x3"⟩]⟩ := by
    have s1 : performHeadRequestLoop b netA 4 u0.href 0 []
        = performHeadRequestLoop b netA 3 u1.href 1 [] :=
      headLoop_step_redirect b netA 3 u0.href 0 [] ⟨301, some l1, ct0, cl0, cd0⟩ l1 u1
        hA0 (by simp) (by rfl) (by decide) hp1
    have s2 : performHeadRequestLoop b netA 3 u1.href 1 []
        = performHeadRequestLoop b netA 2 u2.href 2 [] :=
      headLoop_step_redirect b netA 2 u1.href 1 [] ⟨301, some l2, ct1, cl1, cd1⟩ l2 u2
        hA1 (by simp) (by rfl) (by decide) hp2
    have s3 : performHeadRequestLoop b netA 2 u2.href 2 []
        = performHeadRequestLoop b netA 1 u3.href 3 [] :=
      headLoop_step_redirect b netA 1 u2.href 2 [] ⟨301, some l3, ct2, cl2, cd2⟩ l3 u3
        hA2 (by simp) (by rfl) (by decide) hp3
    have s4 : performHeadRequestLoop b netA 1 u3.href 3 []
        = ⟨u3.href, ct3.getD "text/html", cl3, cd3, 3, [⟨RiskLevel.Amber, "Redirects x3"⟩]⟩ :=
      headLoop_step_terminal b netA 0 u3.href 3 [] ⟨200, locF, ct3, cl3, cd3⟩
        hA3 (by simp) (by rfl)
    exact (((s1.trans s2).trans s3).trans s4)
  have eB : performHeadRequest b netB u0
      = headFallbackNet b u3.href 4 [⟨RiskLevel.Amber, "Redirects x4"⟩] := by
    have s1 : performHeadRequestLoop b netB 4 u0.href 0 []
        = performHeadRequestLoop b netB 3 u1.href 1 [] :=
      headLoop_step_redirect b netB 3 u0.href 0 [] ⟨301, some l1, ct0, cl0, cd0⟩ l1 u1
        hB0 (by simp) (by rfl) (by decide) hp1
    have s2 : performHeadRequestLoop b netB 3 u1.href 1 []
        = performHeadRequestLoop b netB 2 u2.href 2 [] :=
      headLoop_step_redirect b netB 2 u1.href 1 [] ⟨301, some l2, ct1, cl1, cd1⟩ l2 u2
        hB1 (by simp) (by rfl) (by decide) hp2
    have s3 : performHeadRequestLoop b netB 2 u2.href 2 []
        = performHeadRequestLoop b netB 1 u3.href 3 [] :=
      headLoop_step_redirect b netB 1 u2.href 2 [] ⟨301, some l3, ct2, cl2, cd2⟩ l3 u3
        hB2 (by simp) (by rfl) (by decide) hp3
    have s4 : performHeadRequestLoop b netB 1 u3.href 3 []
        = headFallbackNet b u3.href 4 [⟨RiskLevel.Amber, "Redirects x4"⟩] :=
      headLoop_step_cap b netB 0 u3.href 3 [] ⟨301, some l4, ct3, cl3, cd3⟩ l4
        hB3 (by simp) (by rfl) (by decide)
    exact (((s1.trans s2).trans s3).trans s4)
  have eC : performHeadRequest b netC u0
      = ⟨u2.href, ct2.getD "text/html", cl2, cd2, 2, [⟨RiskLevel.Amber, "Redirects x2"⟩]⟩ := by
    have s1 : performHeadRequestLoop b netC 4 u0.href 0 []
        = performHeadRequestLoop b netC 3 u1.href 1 [] :=
      headLoop_step_redirect b netC 3 u0.href 0 [] ⟨301, some l1, ct0, cl0, cd0⟩ l1 u1
        hC0 (by simp) (by rfl) (by decide) hp1
    have s2 : performHeadRequestLoop b netC 3 u1.href 1 []
        = performHeadRequestLoop b netC 2 u2.href 2 [] :=
      headLoop_step_redirect b netC 2 u1.href 1 [] ⟨301, some l2, ct1, cl1, cd1⟩ l2 u2
        hC1 (by simp) (by rfl) (by decide) hp2
    have s3 : performHeadRequestLoop b netC 2 u2.href 2 []
        = ⟨u2.href, ct2.getD "text/html", cl2, cd2, 2, [⟨RiskLevel.Amber, "Redirects x2"⟩]⟩ :=
      headLoop_step_terminal b netC 1 u2.href 2 [] ⟨200, locF, ct2, cl2, cd2⟩
        hC2 (by simp) (by rfl)
    exact ((s1.trans s2).trans s3)
  refine ⟨⟨?_, ?_, ?_⟩, ⟨?_, ?_, ?_⟩, ⟨?_, ?_, ?_⟩⟩ <;>
    simp [eA, eB, eC, headFallbackNet]

/-- Parsed-URL constructor for the C5 witness chain. -/
def hUrl (s : String) : Url := ⟨"http:", "h", "/", "", "", s⟩

/-- Browser oracle for the C5 witness: resolving any location yields a URL
whose href is the location itself. -/
def browser5 : Browser := ⟨fun l _ => some (hUrl l), fun s => some (hUrl s), fun _ => none⟩

/-- Network for the C5 witness, scenario A: u0 → l1 → l2 → l3 → 200. -/
def net5A : String → Option NetResponse := fun s =>
  if s = "u0" then some ⟨301, some "l1", none, none, none⟩
  else if s = "l1" then some ⟨301, some "l2", none, none, none⟩
  else if s = "l2" then some ⟨301, some "l3", none, none, none⟩
  else some ⟨200, none, none, none, none⟩

/-- Network for the C5 witness, scenario B: four redirects. -/
def net5B : String → Option NetResponse := fun s =>
  if s = "u0" then some ⟨301, some "l1", none, none, none⟩
  else if s = "l1" then some ⟨301, some "l2", none, none, none⟩
  else if s = "l2" then some ⟨301, some "l3", none, none, none⟩
  else some ⟨301, some "l4", none, none, none⟩

/-- Network for the C5 witness, scenario C: two redirects then 200. -/
def net5C : String → Option NetResponse := fun s =>
  if s = "u0" then some ⟨301, some "l1", none, none, none⟩
  else if s = "l1" then some ⟨301, some "l2", none, none, none⟩
  else some ⟨200, none, none, none, none⟩

/-- Witness for `performHeadRequest_redirect_chains` on a concrete
four-URL chain. -/
theorem performHeadRequest_redirect_chains_witness :
    ((performHeadRequest browser5 net5A (hUrl "u0")).redirectCount = 3
      ∧ (performHeadRequest browser5 net5A (hUrl "u0")).signals
          = [⟨RiskLevel.Amber, "Redirects x3"⟩]
      ∧ (performHeadRequest browser5 net5A (hUrl "u0")).finalUrl = (hUrl "l3").href)
    ∧ ((performHeadRequest browser5 net5B (hUrl "u0")).redirectCount = 4
      ∧ (performHeadRequest browser5 net5B (hUrl "u0")).signals
          = [⟨RiskLevel.Amber, "Redirects x4"⟩]
      ∧ (performHeadRequest browser5 net5B (hUrl "u0")).finalUrl = (hUrl "l3").href)
    ∧ ((performHeadRequest browser5 net5C (hUrl "u0")).redirectCount = 2
      ∧ (performHeadRequest browser5 net5C (hUrl "u0")).signals
          = [⟨RiskLevel.Amber, "Redirects x2"⟩]
      ∧ (performHeadRequest browser5 net5C (hUrl "u0")).finalUrl = (hUrl "l2").href) := by
  exact performHeadRequest_redirect_chains browser5 net5A net5B net5C
    (hUrl "u0") (hUrl "l1") (hUrl "l2") (hUrl "l3") "l1" "l2" "l3" "l4"
    none none none none none none none none none none none none none
    rfl rfl rfl rfl rfl rfl rfl rfl rfl rfl rfl rfl rfl rfl

/-- Parsed-URL object for the C6 counterexample: an https link whose path
ends in ".pdf". -/
def urlC6 : Url := ⟨"https:", "ex.com", "/f.pdf", "", "", "https://ex.com/f.pdf"⟩

/-- Browser oracle for the C6 counterexample. -/
def browserC6 : Browser := ⟨fun _ _ => some urlC6, fun _ => some urlC6, fun _ => none⟩

/-- Network for the C6 counterexample: one 200 HEAD response carrying
`Content-Disposition: attachment`. -/
def netC6 : String → Option NetResponse :=
  fun _ => some ⟨200, none, some "text/html", none, some "attachment"⟩

/-- C6 counterexample: the final HEAD response carries
`Content-Disposition: attachment`, the final URL ends in ".pdf", and the
resolved type is PDF — not Download — because the URL-extension override
runs after (and overwrites) the attachment rule. -/
theorem attachment_before_extension_counterexample :
    (netC6 "https://ex.com/f.pdf").map (fun r => r.contentDisposition)
      = some (some "attachment")
    ∧ (performPreflightCheck browserC6 netC6 (fun _ => none) (fun _ => none)
        "https://ex.com/f.pdf" "report" "https://page.com/").toOption.map (fun r => r.type)
      = some LinkType.PDF
    ∧ LinkType.PDF ≠ LinkType.Download := by
  exact ⟨rfl, by decide, by decide⟩

/-- C6 amended: `Content-Disposition: attachment` is matched first within
the header-based type mapping, but the orchestrator's URL-extension override
runs afterwards and takes precedence over it: if the final URL positively
matches a known pdf/image/video extension the resolved type is the
extension's type regardless of the headers (hence even under attachment);
the attachment rule determines the final type when no known URL extension
matches. -/
theorem attachment_vs_extension_precedence (b : Browser)
    (sniff : String → Option LinkType) (dvp : Url → Option VideoPlatform)
    (allSignals : List RiskSignal) (tm : Option (String × String))
    (headResult : HeadResult) (t : LinkType) (fu : Url) (ct cd : String) :
    (hasSubstr (jsToLower cd) "attachment" = true →
      determineLinkTypeFromContentType ct (some cd) = LinkType.Download)
    ∧ (guesslinkTypeFromUrl b headResult.finalUrl = some t →
        (t = LinkType.PDF ∨ t = LinkType.Image ∨ t = LinkType.Video) →
        b.parseAbs headResult.finalUrl = some fu →
        (resolveProbedResult b sniff dvp allSignals tm headResult).toOption.map
          (fun r => r.type) = some t)
    ∧ (guesslinkTypeFromUrl b headResult.finalUrl = none →
        headResult.contentDisposition = some cd →
        hasSubstr (jsToLower cd) "attachment" = true →
        sniff headResult.finalUrl = none →
        b.parseAbs headResult.finalUrl = some fu →
        (resolveProbedResult b sniff dvp allSignals tm headResult).toOption.map
          (fun r => r.type) = some LinkType.Download) := by
  refine ⟨?_, ?_, ?_⟩
  · intro hcd
    simp [determineLinkTypeFromContentType, hcd]
  · intro hg ht hfu
    have hnd : t ≠ LinkType.Download := by
      rcases ht with rfl | rfl | rfl <;> decide
    simp only [resolveProbedResult, hg, hfu]
    rw [if_neg (fun hand => hnd hand.1)]
    rfl
  · intro hg hcd2 hcd hsn hfu
    have h0 : determineLinkTypeFromContentType headResult.contentType
        headResult.contentDisposition = LinkType.Download := by
      rw [hcd2]
      simp [determineLinkTypeFromContentType, hcd]
    simp only [resolveProbedResult, hg, h0, hfu, eq_self_iff_true, true_and]
    by_cases hoct : hasSubstr headResult.contentType "octet-stream" = true
    · rw [if_pos hoct, hsn]
      rfl
    · rw [if_neg hoct]
      rfl

/-- Final HEAD result for the no-extension side of the C6 witness: an
octet-stream attachment at an extension-less URL. -/
def headD : HeadResult :=
  ⟨"https://ex.com/dl", "application/octet-stream", none, some "attachment", 0, []⟩

/-- Parsed-URL object for the no-extension side of the C6 witness. -/
def urlD : Url := ⟨"https:", "ex.com", "/dl", "", "", "https://ex.com/dl"⟩

/-- Browser oracle for the no-extension side of the C6 witness. -/
def browserD : Browser := ⟨fun _ _ => some urlD, fun _ => some urlD, fun _ => none⟩

/-- Final HEAD result for the ".pdf" side of the C6 witness. -/
def headC6 : HeadResult :=
  ⟨"https://ex.com/f.pdf", "text/html", none, some "attachment", 0, []⟩

/-- Witness for `attachment_vs_extension_precedence`: attachment wins inside
the header mapping, the ".pdf" extension then wins over attachment, and an
extension-less attachment resolves to Download. -/
theorem attachment_vs_extension_precedence_witness :
    determineLinkTypeFromContentType "application/pdf" (some "attachment")
      = LinkType.Download
    ∧ (resolveProbedResult browserC6 (fun _ => none) (fun _ => none) [] none
        headC6).toOption.map (fun r => r.type) = some LinkType.PDF
    ∧ (resolveProbedResult browserD (fun _ => none) (fun _ => none) [] none
        headD).toOption.map (fun r => r.type) = some LinkType.Download := by
  refine ⟨?_, ?_, ?_⟩
  · exact (attachment_vs_extension_precedence browserC6 (fun _ => none) (fun _ => none)
      [] none headC6 LinkType.PDF urlC6 "application/pdf" "attachment").1 (by decide)
  · exact (attachment_vs_extension_precedence browserC6 (fun _ => none) (fun _ => none)
      [] none headC6 LinkType.PDF urlC6 "application/pdf" "attachment").2.1 (by decide)
      (Or.inl rfl) (by decide)
  · exact (attachment_vs_extension_precedence browserD (fun _ => none) (fun _ => none)
      [] none headD LinkType.PDF urlD "x" "attachment").2.2 (by decide) (by decide)
      (by decide) (by decide) (by decide)

end HoverPeek
